import Mathlib

/-!
Verification of the RapidLink URL-shortener core: deterministic Base58 code
generation, collision handling, idempotent deduplication, the bulk-ingestion
pipeline, redirect-time click accounting, and the demo shortener.

The Go source is embedded shallowly: pure functions become Lean functions,
MongoDB is modelled as an explicit `Store` value threaded through each
handler, machine integers are `Nat` with explicit reductions mod 2^32 where
the Go code relies on 32-bit wrap-around (SHA-256), and external
collaborators that are Go standard-library services (net/url parsing,
time parsing/formatting, the random source, html escaping) are abstract
parameters bundled in an `Env` record.
-/

namespace RapidLink

/-! ## Base58 encoding (handlers.go lines 31-69) -/

/-- The Base58 alphabet from `handlers.go`: Bitcoin-style, excluding the
visually ambiguous glyphs 0, O, I, l. -/
def base58Alphabet : String := "123456789ABCDEFGHJKLMNPQRSTUVWXYZabcdefghijkmnopqrstuvwxyz"

/-- The alphabet as a list of characters (`base58Alphabet[i]` in Go). -/
def base58Chars : List Char := base58Alphabet.toList

/-- One Base58 digit: `base58Alphabet[m]` for `m < 58`. -/
def base58Digit (m : Nat) : Char := base58Chars.getD m '1'

/-- The digit-accumulation loop of `encodeBase58`: repeatedly `DivMod` by 58,
prepending `base58Alphabet[mod]` to the result (most significant digit
first).  The loop terminates because the value shrinks on every step; here
it is driven by a fuel argument for which any value `≥ n` is sufficient
(see `encodeBase58Go_fuel`). -/
def encodeBase58Go : Nat → Nat → List Char
  | 0, _ => []
  | fuel + 1, n =>
    if n = 0 then [] else encodeBase58Go fuel (n / 58) ++ [base58Digit (n % 58)]

/-- `encodeBase58` from `handlers.go`: converts a (big) integer to a Base58
string; zero encodes as "1". -/
def encodeBase58 (n : Nat) : List Char :=
  if n = 0 then ['1'] else encodeBase58Go n n

/-- The `for len(code) < minLength` loop of `padBase58`; each iteration
prepends one '1', so `minLength` units of fuel always suffice
(see `padLoop_length_ge`). -/
def padLoop : Nat → List Char → Nat → List Char
  | 0, code, _ => code
  | fuel + 1, code, minLength =>
    if code.length < minLength then padLoop fuel ('1' :: code) minLength else code

/-- `padBase58` from `handlers.go`: prepend '1' (the Base58 zero symbol)
while the code is shorter than `minLength`. -/
def padBase58 (code : List Char) (minLength : Nat) : List Char :=
  padLoop minLength code minLength

/-! ## SHA-256 (Go `crypto/sha256`, used by `generateReadableCode`)

Go's `sha256.Sum256` is standard-library code; it is embedded here in full
(FIPS 180-4) over byte lists so that `generateReadableCode`'s hashing step
is concrete and executable. 32-bit words are `Nat` reduced mod 2^32. -/

/-- Reduce to a 32-bit word. -/
def w32 (n : Nat) : Nat := n % 4294967296

/-- 32-bit right rotation. -/
def rotr32 (x n : Nat) : Nat := w32 ((x >>> n) ||| (x <<< (32 - n)))

/-- 32-bit bitwise complement. -/
def not32 (x : Nat) : Nat := 4294967295 ^^^ x

def sha256BigSigma0 (x : Nat) : Nat := rotr32 x 2 ^^^ rotr32 x 13 ^^^ rotr32 x 22
def sha256BigSigma1 (x : Nat) : Nat := rotr32 x 6 ^^^ rotr32 x 11 ^^^ rotr32 x 25
def sha256SmallSigma0 (x : Nat) : Nat := rotr32 x 7 ^^^ rotr32 x 18 ^^^ (x >>> 3)
def sha256SmallSigma1 (x : Nat) : Nat := rotr32 x 17 ^^^ rotr32 x 19 ^^^ (x >>> 10)
def sha256Ch (x y z : Nat) : Nat := (x &&& y) ^^^ (not32 x &&& z)
def sha256Maj (x y z : Nat) : Nat := (x &&& y) ^^^ (x &&& z) ^^^ (y &&& z)

/-- The 64 SHA-256 round constants of FIPS 180-4 (decimal). -/
def sha256K : List Nat :=
  [1116352408, 1899447441, 3049323471, 3921009573, 961987163,
   1508970993, 2453635748, 2870763221, 3624381080, 310598401,
   607225278, 1426881987, 1925078388, 2162078206, 2614888103,
   3248222580, 3835390401, 4022224774, 264347078, 604807628,
   770255983, 1249150122, 1555081692, 1996064986, 2554220882,
   2821834349, 2952996808, 3210313671, 3336571891, 3584528711,
   113926993, 338241895, 666307205, 773529912, 1294757372,
   1396182291, 1695183700, 1986661051, 2177026350, 2456956037,
   2730485921, 2820302411, 3259730800, 3345764771, 3516065817,
   3600352804, 4094571909, 275423344, 430227734, 506948616,
   659060556, 883997877, 958139571, 1322822218, 1537002063,
   1747873779, 1955562222, 2024104815, 2227730452, 2361852424,
   2428436474, 2756734187, 3204031479, 3329325298]

/-- The SHA-256 initial hash value of FIPS 180-4 (decimal). -/
def sha256H0 : List Nat :=
  [1779033703, 3144134277, 1013904242, 2773480762,
   1359893119, 2600822924, 528734635, 1541459225]

/-- `k` bytes of `n`, big-endian. -/
def toBytesBE : Nat → Nat → List Nat
  | 0, _ => []
  | k + 1, n => toBytesBE k (n / 256) ++ [n % 256]

/-- Big-endian byte list to integer (`big.Int.SetBytes` in Go). -/
def fromBytesBE (l : List Nat) : Nat := l.foldl (fun acc b => acc * 256 + b) 0

/-- SHA-256 message padding: append 0x80, zero bytes to 56 mod 64, then the
bit length as 8 big-endian bytes. -/
def sha256Pad (msg : List Nat) : List Nat :=
  msg ++ [0x80] ++ List.replicate ((119 - msg.length % 64) % 64) 0 ++ toBytesBE 8 (8 * msg.length)

/-- Group bytes into big-endian 32-bit words. -/
def bytesToWordsBE : List Nat → List Nat
  | a :: b :: c :: d :: rest => (((a * 256 + b) * 256 + c) * 256 + d) :: bytesToWordsBE rest
  | _ => []

/-- Split a word list into 16-word blocks (fuel-driven; every step consumes
at least one word, so `ws.length` units of fuel always suffice). -/
def toBlocksGo : Nat → List Nat → List (List Nat)
  | 0, _ => []
  | fuel + 1, ws => if ws = [] then [] else ws.take 16 :: toBlocksGo fuel (ws.drop 16)

/-- Split a word list into 16-word blocks. -/
def toBlocks (ws : List Nat) : List (List Nat) := toBlocksGo ws.length ws

/-- The SHA-256 message schedule: extend 16 block words to 64. -/
def sha256Schedule (block : List Nat) : List Nat :=
  (List.range 48).foldl
    (fun w _ =>
      w ++ [w32 (sha256SmallSigma1 (w.getD (w.length - 2) 0) + w.getD (w.length - 7) 0 +
                 sha256SmallSigma0 (w.getD (w.length - 15) 0) + w.getD (w.length - 16) 0)])
    block

/-- One SHA-256 compression round on state `[a,b,c,d,e,f,g,h]`. -/
def sha256Round (st : List Nat) (kt wt : Nat) : List Nat :=
  match st with
  | [a, b, c, d, e, f, g, h] =>
    let t1 := w32 (h + sha256BigSigma1 e + sha256Ch e f g + kt + wt)
    let t2 := w32 (sha256BigSigma0 a + sha256Maj a b c)
    [w32 (t1 + t2), a, b, c, w32 (d + t1), e, f, g]
  | st => st

/-- Compress one 16-word block into the running hash. -/
def sha256Block (h : List Nat) (block : List Nat) : List Nat :=
  let st := ((sha256K.zip (sha256Schedule block)).foldl
    (fun st kw => sha256Round st kw.1 kw.2) h)
  (h.zip st).map fun p => w32 (p.1 + p.2)

/-- SHA-256 of a byte list, as the 32-byte digest (`sha256.Sum256`). -/
def sha256Bytes (msg : List Nat) : List Nat :=
  ((toBlocks (bytesToWordsBE (sha256Pad msg))).foldl sha256Block sha256H0).map (toBytesBE 4)
    |>.flatten

/-- UTF-8 encoding of one character (Go's `[]byte(string)` view). -/
def utf8EncodeCharBytes (c : Char) : List Nat :=
  let n := c.toNat
  if n < 0x80 then [n]
  else if n < 0x800 then [0xC0 ||| (n >>> 6), 0x80 ||| (n &&& 0x3F)]
  else if n < 0x10000 then
    [0xE0 ||| (n >>> 12), 0x80 ||| ((n >>> 6) &&& 0x3F), 0x80 ||| (n &&& 0x3F)]
  else
    [0xF0 ||| (n >>> 18), 0x80 ||| ((n >>> 12) &&& 0x3F), 0x80 ||| ((n >>> 6) &&& 0x3F),
     0x80 ||| (n &&& 0x3F)]

/-- The UTF-8 bytes of a string, Go's `[]byte(longURL)`. -/
def strBytes (s : String) : List Nat := (s.toList.map utf8EncodeCharBytes).flatten

/-! ## Deterministic base-code generation (handlers.go lines 686-704) -/

/-- `new(big.Int).SetBytes(hash[:8])`: the first 8 digest bytes of the
SHA-256 of the URL, interpreted as a big-endian unsigned integer. -/
def urlHashInt (longURL : String) : Nat := fromBytesBE ((sha256Bytes (strBytes longURL)).take 8)

/-- The deterministic part of `generateReadableCode` (before the database
collision check): SHA-256 the URL, take the first 8 bytes as an integer,
Base58-encode, pad to a minimum length of 6 with '1', truncate to 10. -/
def generateReadableBaseCode (longURL : String) : List Char :=
  let base58Code := encodeBase58 (urlHashInt longURL)
  let padded := if base58Code.length < 6 then padBase58 base58Code 6 else base58Code
  if padded.length > 10 then padded.take 10 else padded

/-! ## Data model

`URLData`, `ClickHistory`, `DemoURL` from `handlers.go` / `part_003`.
MongoDB ObjectIDs become a `Nat` counter (`Store.nextId`), timestamps become
`Nat` (seconds). -/

/-- One element of `click_history` (`ClickHistory` in handlers.go). -/
structure ClickHistoryEntry where
  timestamp : Nat
  ip : String
  userAgent : String
deriving DecidableEq, Repr

/-- `URLData` from handlers.go: one document of the `urls` collection. -/
structure URLData where
  id : Nat
  shortURL : String
  longURL : String
  domain : String
  tags : List String
  userID : String
  createdAt : Nat
  expiresAt : Option Nat
  clicks : Nat
  isActive : Bool
  lastClicked : Option Nat
  clickHistory : List ClickHistoryEntry
deriving DecidableEq, Repr

/-- `DemoURL` from the anonymous/demo shortener: one document of the
`demo_urls` collection. -/
structure DemoURL where
  id : Nat
  shortURL : String
  longURL : String
  domain : String
  createdAt : Nat
  expiresAt : Nat
  sessionID : String
deriving DecidableEq, Repr

/-- The MongoDB instance: the `urls` and `demo_urls` collections plus an
ObjectID counter. -/
structure Store where
  urls : List URLData
  demo : List DemoURL
  nextId : Nat
deriving DecidableEq, Repr

/-- The result of Go's `net/url.Parse` as far as `validateURL` consumes it:
the scheme and host components. -/
structure ParsedURL where
  scheme : String
  host : String
deriving DecidableEq, Repr

/-- External collaborators of the handlers, bundled: environment variables,
the Go standard library (URL parsing, time parsing, html escaping), the
random source (each random draw appears as the value it produced), the
clock, and per-request client data. -/
structure Env where
  baseURL : String
  urlParse : String → Option ParsedURL
  allowLocalhost : Bool
  parseRFC3339 : String → Option Nat
  parseDateEOD : String → Option Nat
  sanitizeInput : String → String
  now : Nat
  nowPlus5y : Nat
  suffixGen : String
  suffixCol : String
  newSessionID : String
  clientIP : String
  userAgent : String

/-! ## Validation (security.go lines 144-215) -/

/-- `p` starts the character list `l`. -/
def listStarts (l p : List Char) : Bool := decide (l.take p.length = p)

/-- Scan for `p` at every position of the character list. -/
def strHasAux (p : List Char) : List Char → Bool
  | [] => decide (p = [])
  | c :: rest => listStarts (c :: rest) p || strHasAux p rest

/-- Go `strings.Contains`. -/
def strHas (s sub : String) : Bool := listStarts s.toList sub.toList || strHasAux sub.toList s.toList

/-- Go `strings.HasPrefix`: `sub` starts `s`. -/
def strStarts (s sub : String) : Bool := listStarts s.toList sub.toList

/-- Go `strings.ToLower`. -/
def lowerStr (s : String) : String := String.mk (s.toList.map Char.toLower)

/-- `validateURL` from security.go: parse, require http/https scheme, byte
length in [10, 2048], a nonempty host, and no localhost/private-network
hostnames (localhost gated by the ALLOW_LOCALHOST environment flag).  The
final `utf8.ValidString` check is identically true for Lean strings. -/
def validateURL (env : Env) (longURL : String) : Bool :=
  match env.urlParse longURL with
  | none => false
  | some u =>
    if u.scheme != "http" && u.scheme != "https" then false
    else if decide ((strBytes longURL).length > 2048) || decide ((strBytes longURL).length < 10) then
      false
    else if u.host == "" then false
    else
      let hostname := lowerStr u.host
      if (!env.allowLocalhost && strHas hostname "localhost") ||
          strHas hostname "127.0.0.1" || strHas hostname "0.0.0.0" ||
          strStarts hostname "192.168." || strStarts hostname "10." then false
      else true

/-- One character of the class `[a-zA-Z0-9_-]`. -/
def isCustomChar (c : Char) : Bool := c.isAlphanum || c == '-' || c == '_'

/-- `validateCustomURL` from security.go: empty is accepted (optional
field); otherwise the regex `[a-zA-Z0-9_-]` repeated 3 to 20 times. -/
def validateCustomURL (custom : String) : Bool :=
  if custom == "" then true
  else
    decide (3 ≤ custom.toList.length) && decide (custom.toList.length ≤ 20) &&
      custom.toList.all isCustomChar

/-! ## Code generation with collision lookup (handlers.go lines 706-732)

The database is modelled as connected (`DB ≠ nil`), so the random-fallback
branch for an absent connection and the lookup-error branch do not arise;
the random 2-character suffix drawn by `generateBase58Suffix(2)` appears as
`env.suffixGen`. -/

/-- `generateReadableCode` from handlers.go: the deterministic base code,
then one existence check against the store; on a hit, one random
2-character suffix is appended and the result returned with no further
check. -/
def generateReadableCode (env : Env) (s : Store) (longURL : String) : String :=
  let base58Code := String.mk (generateReadableBaseCode longURL)
  match s.urls.find? (fun r => r.shortURL == base58Code) with
  | none => base58Code
  | some _ => base58Code ++ env.suffixGen

/-! ## Single create (handlers.go `shorten`, lines 531-683)

The handler is embedded from the point where the JSON payload has been
decoded and `sanitizeInput` applied to its fields (lines 536-549); the
request fields below are those sanitized values. -/

/-- The JSON payload of PUT /url after sanitization. -/
structure ShortenRequest where
  longURL : String
  custom : String
  expires : String
  domain : String
  tags : List String
deriving DecidableEq, Repr

/-- What `shorten` sends back: the HTTP status, the encoded document (when
any), and the store as left behind. -/
structure ShortenOutcome where
  status : Nat
  body : Option URLData
  store : Store
deriving DecidableEq, Repr

/-- The dedup lookup filter of `shorten` and `processSingleURL`:
`long_url`, `domain`, `user_id`, `is_active: true`. -/
def dedupMatch (longURL domain userID : String) (r : URLData) : Bool :=
  r.longURL == longURL && r.domain == domain && r.userID == userID && r.isActive

/-- The effective domain: `req.Domain`, defaulted to BASE_URL when empty
(handlers.go lines 551-553). -/
def effDomain (env : Env) (req : ShortenRequest) : String :=
  if req.domain == "" then env.baseURL else req.domain

/-- The code `shorten` resolves (handlers.go lines 609-614): the caller's
custom code verbatim when supplied, the generated Base58 code otherwise. -/
def shortenCode (env : Env) (req : ShortenRequest) (s : Store) : String :=
  if req.custom == "" then generateReadableCode env s req.longURL else req.custom

/-- The tail of `shorten` past the dedup miss (handlers.go lines 616-683):
parse the expiry (default now+5y), build the document, run one collision
check on the resolved code (appending `env.suffixCol` on a hit), insert,
answer 201. -/
def shortenInsertPhase (env : Env) (req : ShortenRequest) (userID : String) (s : Store)
    (code : String) : ShortenOutcome :=
  let expiry : Option (Option Nat) :=
    if req.expires != "" then
      match env.parseRFC3339 req.expires with
      | some t => some (some t)
      | none => none
    else some (some env.nowPlus5y)
  match expiry with
  | none => ⟨400, none, s⟩
  | some expiresAt =>
    let urlData : URLData :=
      { id := s.nextId, shortURL := code, longURL := req.longURL, domain := effDomain env req,
        tags := req.tags, userID := userID, createdAt := env.now, expiresAt := expiresAt,
        clicks := 0, isActive := true, lastClicked := none, clickHistory := [] }
    match s.urls.find? (fun r => r.shortURL == code) with
    | some _ =>
      let urlData2 := { urlData with shortURL := code ++ env.suffixCol }
      ⟨201, some urlData2, { s with urls := s.urls ++ [urlData2], nextId := s.nextId + 1 }⟩
    | none => ⟨201, some urlData, { s with urls := s.urls ++ [urlData], nextId := s.nextId + 1 }⟩

/-- `shorten` from handlers.go: validate, dedup lookup (idempotent
short-circuit with 200), then resolve a code and run the insert phase. -/
def shorten (env : Env) (req : ShortenRequest) (userID : String) (s : Store) : ShortenOutcome :=
  let domain := effDomain env req
  if !validateURL env req.longURL then ⟨400, none, s⟩
  else if domain != "" && !validateURL env domain then ⟨400, none, s⟩
  else if req.custom != "" && !validateCustomURL req.custom then ⟨400, none, s⟩
  else
    match s.urls.find? (dedupMatch req.longURL domain userID) with
    | some existing => ⟨200, some existing, s⟩
    | none => shortenInsertPhase env req userID s (shortenCode env req s)

/-! ## Redirect (handlers.go `redirect`, lines 825-926) -/

/-- The three terminal responses of the redirect handler: a 301 to the
target, a 404, or the 403 security block. -/
inductive RedirectOutcome where
  | redirectTo (target : String)
  | notFound
  | blocked
deriving DecidableEq, Repr

/-- The primary lookup filter: `short_url`, `is_active: true`, and
`expires_at > now` or `expires_at: nil`. -/
def primaryMatch (env : Env) (code : String) (r : URLData) : Bool :=
  r.shortURL == code && r.isActive &&
    (match r.expiresAt with
     | some t => decide (env.now < t)
     | none => true)

/-- The analytics update fired on a primary-lookup hit: one atomic
`UpdateOne` carrying `$inc clicks 1`, `$set last_clicked`, and
`$push click_history` for the matched document. -/
def recordClick (env : Env) (s : Store) (rid : Nat) : Store :=
  { s with urls := s.urls.map fun u =>
      if u.id == rid then
        { u with clicks := u.clicks + 1, lastClicked := some env.now,
                 clickHistory := u.clickHistory ++ [⟨env.now, env.clientIP, env.userAgent⟩] }
      else u }

/-- The up-front rejection of the redirect handler: empty or reserved path
segments, over-long codes, or codes failing `validateCustomURL`. -/
def redirectGate (shortURL : String) : Bool :=
  shortURL == "" || shortURL == "url" || shortURL == "analytics" ||
    decide ((strBytes shortURL).length > 50) || !validateCustomURL shortURL

/-- `redirect` from handlers.go: reject reserved or malformed path
segments, then primary lookup (on a hit: record the click, then re-validate
the stored target and either block or redirect), then the demo fallback
(no click accounting), else not-found. -/
def redirect (env : Env) (shortURL : String) (s : Store) : RedirectOutcome × Store :=
  if redirectGate shortURL then
    (.notFound, s)
  else
    match s.urls.find? (primaryMatch env shortURL) with
    | some urlData =>
      let s2 := recordClick env s urlData.id
      if !validateURL env urlData.longURL then (.blocked, s2)
      else (.redirectTo urlData.longURL, s2)
    | none =>
      match s.demo.find? (fun d => d.shortURL == shortURL && decide (env.now < d.expiresAt)) with
      | some demoURL =>
        if !validateURL env demoURL.longURL then (.blocked, s)
        else (.redirectTo demoURL.longURL, s)
      | none => (.notFound, s)

/-! ## Bulk ingestion (handlers.go lines 1022-1295) -/

/-- One parsed CSV row (`BulkURLRequest`). -/
structure BulkURLRequest where
  longURL : String
  domain : String
  customAlias : String
  tags : List String
  expires : String
deriving DecidableEq, Repr

/-- One per-row outcome (`BulkURLResult`); `createdAt` carries the timestamp
the Go code formats to RFC3339 for the response. -/
structure BulkURLResult where
  longURL : String
  shortURL : String
  domain : String
  tags : List String
  success : Bool
  error : String
  createdAt : Option Nat
deriving DecidableEq, Repr

/-- `sanitizeStringSlice` from handlers.go. -/
def sanitizeStringSlice (env : Env) (l : List String) : List String := l.map env.sanitizeInput

/-- `generateShortCodeForBulk` from handlers.go: a nonempty custom alias is
validated and then checked against active records (error when taken, used
verbatim when free); with no alias the generated code is used.  The Go
error string quotes the alias; the quotes are elided here. -/
def generateShortCodeForBulk (env : Env) (s : Store) (longURL customAlias : String) :
    Except String String :=
  if customAlias != "" then
    if !validateCustomURL customAlias then .error "invalid custom alias format"
    else
      match s.urls.find? (fun r => r.shortURL == customAlias && r.isActive) with
      | some _ => .error ("custom alias " ++ customAlias ++ " already exists")
      | none => .ok customAlias
  else .ok (generateReadableCode env s longURL)

/-- The bulk row's effective domain (handlers.go lines 1178-1184):
`req.Domain`, else BASE_URL, else `http://localhost:8080`. -/
def bulkDomain (env : Env) (req : BulkURLRequest) : String :=
  if req.domain == "" then
    if env.baseURL == "" then "http://localhost:8080" else env.baseURL
  else req.domain

/-- `processSingleURL` from handlers.go: validate, default the domain
(BASE_URL, falling back to localhost:8080), sanitize tags, dedup lookup
(returning the existing mapping as a success), resolve the code, parse the
expiry (RFC3339 or date-only interpreted as end of day, via
`env.parseDateEOD`), insert, report success. -/
def processSingleURL (env : Env) (req : BulkURLRequest) (userID : String) (s : Store) :
    BulkURLResult × Store :=
  let result0 : BulkURLResult :=
    { longURL := req.longURL, shortURL := "", domain := req.domain, tags := req.tags,
      success := false, error := "", createdAt := none }
  if !validateURL env req.longURL then ({ result0 with error := "Invalid URL format" }, s)
  else
    let domain := bulkDomain env req
    let tags := if decide (0 < req.tags.length) then sanitizeStringSlice env req.tags else req.tags
    let result1 := { result0 with domain := domain, tags := tags }
    match s.urls.find? (dedupMatch req.longURL domain userID) with
    | some existing =>
      ({ result1 with shortURL := existing.shortURL, success := true,
                      createdAt := some existing.createdAt }, s)
    | none =>
      match generateShortCodeForBulk env s req.longURL req.customAlias with
      | .error e => ({ result1 with error := "Failed to generate short code: " ++ e }, s)
      | .ok shortCode =>
        let expiry : Option (Option Nat) :=
          if req.expires != "" then
            match env.parseRFC3339 req.expires with
            | some t => some (some t)
            | none =>
              match env.parseDateEOD req.expires with
              | some t => some (some t)
              | none => none
          else some (some env.nowPlus5y)
        match expiry with
        | none => ({ result1 with error := "Invalid expiration date format: " ++ req.expires }, s)
        | some expiresAt =>
          let urlData : URLData :=
            { id := s.nextId, shortURL := shortCode, longURL := req.longURL, domain := domain,
              tags := tags, userID := userID, createdAt := env.now, expiresAt := expiresAt,
              clicks := 0, isActive := true, lastClicked := none, clickHistory := [] }
          ({ result1 with shortURL := shortCode, success := true, createdAt := some env.now },
           { s with urls := s.urls ++ [urlData], nextId := s.nextId + 1 })

/-- The worker pool of `processBulkFile`: workers pull row indices off the
`jobs` channel in an unspecified interleaving and each stores its row's
result at that row's own index of the pre-sized results buffer.  A
`schedule` lists the indices in the order they get processed; the store
passes from one processed row to the next. -/
def runSchedule (env : Env) (userID : String) (rows : List BulkURLRequest) :
    List Nat → Store → List (Option BulkURLResult) → List (Option BulkURLResult) × Store
  | [], s, buf => (buf, s)
  | i :: rest, s, buf =>
    match rows[i]? with
    | none => runSchedule env userID rows rest s buf
    | some row =>
      let p := processSingleURL env row userID s
      runSchedule env userID rows rest p.2 (buf.set i (some p.1))

/-- `processBulkFile`'s per-row phase: run every scheduled row over the
buffer pre-sized to the row count (`make([]BulkURLResult, len(urls))`). -/
def processBatch (env : Env) (userID : String) (rows : List BulkURLRequest)
    (schedule : List Nat) (s : Store) : List (Option BulkURLResult) × Store :=
  runSchedule env userID rows schedule s (List.replicate rows.length none)

/-! ## Demo shortener (src/unnamed/part_003 `rapidLinkDemo`) -/

/-- The JSON payload of the demo endpoint. -/
structure DemoRequest where
  longURL : String
  domain : String
deriving DecidableEq, Repr

/-- The demo handler's terminal responses: 403 when the session cap is hit,
400 on an undecodable payload, 200 with the created document. -/
inductive DemoOutcome where
  | limitReached
  | badPayload
  | created (d : DemoURL)
deriving DecidableEq, Repr

/-- How many demo documents a session owns (`CountDocuments` on
`session_id`). -/
def demoCount (s : Store) (sessionID : String) : Nat :=
  (s.demo.filter fun d => d.sessionID == sessionID).length

/-- The session the request runs under: the cookie value, or a fresh
ObjectID when the cookie is absent or empty. -/
def usedSession (env : Env) (cookie : Option String) : String :=
  match cookie with
  | some v => if v == "" then env.newSessionID else v
  | none => env.newSessionID

/-- `rapidLinkDemo` from part_003: resolve the session, count its demo
documents and refuse with 403 at 5 or more, decode the payload, generate a
code, insert a demo document expiring in one hour (3600 s). -/
def rapidLinkDemo (env : Env) (cookie : Option String) (body : Option DemoRequest) (s : Store) :
    DemoOutcome × Store :=
  let sessionID := usedSession env cookie
  if decide (5 ≤ demoCount s sessionID) then (.limitReached, s)
  else
    match body with
    | none => (.badPayload, s)
    | some req =>
      let code := generateReadableCode env s req.longURL
      let demoURL : DemoURL :=
        { id := s.nextId, shortURL := code, longURL := req.longURL, domain := req.domain,
          createdAt := env.now, expiresAt := env.now + 3600, sessionID := sessionID }
      (.created demoURL, { s with demo := s.demo ++ [demoURL], nextId := s.nextId + 1 })

/-! ## Expiry sweep (database.go `CleanupExpiredURLs`, lines 234-258) -/

/-- `CleanupExpiredURLs`: every active document whose `expires_at` has
passed is marked inactive. -/
def cleanupExpiredURLs (env : Env) (s : Store) : Store :=
  { s with urls := s.urls.map fun r =>
      if (match r.expiresAt with | some t => decide (t ≤ env.now) | none => false) && r.isActive
      then { r with isActive := false }
      else r }

/-! ## Index model (database.go `createIndexes`, lines 119-232)

Only the string-valued key fields participate in the uniqueness questions
below; timestamp-keyed indexes carry no `unique` option in the source. -/

/-- One MongoDB index as `createIndexes` declares it: its key fields,
whether it is unique, and whether it is restricted by the partial filter
`is_active: true`. -/
structure IndexSpec where
  keys : List String
  unique : Bool
  onlyActive : Bool
deriving DecidableEq, Repr

/-- The value a document holds at an index key field (string fields; the
timestamp fields only occur in non-unique indexes). -/
def fieldVal (r : URLData) : String → String
  | "short_url" => r.shortURL
  | "long_url" => r.longURL
  | "user_id" => r.userID
  | "domain" => r.domain
  | _ => ""

/-- The seven indexes `createIndexes` places on the `urls` collection, in
source order: unique `short_url`; unique `long_url` restricted to
`is_active: true`; `expires_at`; `created_at`; `(is_active, created_at)`;
`user_id`; `(user_id, created_at)`. -/
def urlIndexes : List IndexSpec :=
  [⟨["short_url"], true, false⟩,
   ⟨["long_url"], true, true⟩,
   ⟨["expires_at"], false, false⟩,
   ⟨["created_at"], false, false⟩,
   ⟨["is_active", "created_at"], false, false⟩,
   ⟨["user_id"], false, false⟩,
   ⟨["user_id", "created_at"], false, false⟩]

/-- A document falls under an index (a plain index covers all documents, a
partial one only active documents). -/
def coveredBy (idx : IndexSpec) (r : URLData) : Bool := !idx.onlyActive || r.isActive

/-- Boolean pairwise check over a list. -/
def pairwiseB (p : α → α → Bool) : List α → Bool
  | [] => true
  | a :: l => l.all (p a) && pairwiseB p l

/-- A store satisfies one index: when the index is unique, no two covered
documents agree on all its key fields. -/
def indexAdmits (idx : IndexSpec) (s : Store) : Bool :=
  !idx.unique ||
    pairwiseB (fun a b =>
      !coveredBy idx a || !coveredBy idx b ||
        decide (idx.keys.map (fieldVal a) ≠ idx.keys.map (fieldVal b))) s.urls

/-- A store the created indexes admit. -/
def storeAdmitted (s : Store) : Bool := urlIndexes.all (indexAdmits · s)

/-- Modelled from the spec: the claimed store-level constraint, a
"unique constraint on (targetURL, domain) scoped to active=true" — no two
active documents agree on both `long_url` and `domain`. -/
def specPairConstraint (s : Store) : Bool :=
  pairwiseB (fun a b =>
    !a.isActive || !b.isActive || decide ((a.longURL, a.domain) ≠ (b.longURL, b.domain))) s.urls

/-! ## Store operations

Every write the sources perform on the `urls`/`demo_urls` collections,
as one step relation; a system history is a list of such steps. -/

/-- One store-mutating request. -/
inductive Op where
  | opShorten (env : Env) (req : ShortenRequest) (userID : String)
  | opBulkRow (env : Env) (req : BulkURLRequest) (userID : String)
  | opRedirect (env : Env) (shortURL : String)
  | opDemo (env : Env) (cookie : Option String) (body : Option DemoRequest)
  | opCleanup (env : Env)

/-- The store each operation leaves behind. -/
def applyOp (s : Store) : Op → Store
  | .opShorten env req uid => (shorten env req uid s).store
  | .opBulkRow env req uid => (processSingleURL env req uid s).2
  | .opRedirect env c => (redirect env c s).2
  | .opDemo env ck b => (rapidLinkDemo env ck b s).2
  | .opCleanup env => cleanupExpiredURLs env s

/-- The click-accounting invariant: every link's `clicks` counter equals
the length of its `click_history`. -/
def ClickInv (s : Store) : Prop := ∀ r ∈ s.urls, r.clicks = r.clickHistory.length

/-! ## Concrete instances used in the counterexamples and witnesses -/

/-- A small concrete `net/url.Parse`: a lookup table for the URLs used in
the concrete scenarios; everything else fails to parse. -/
def parseA : String → Option ParsedURL := fun s =>
  if s == "https://example.com/a" then some ⟨"https", "example.com"⟩
  else if s == "https://go.example/x" then some ⟨"https", "go.example"⟩
  else if s == "https://other.example/ab" then some ⟨"https", "other.example"⟩
  else none

/-- A concrete environment for the scenarios. -/
def envA : Env :=
  { baseURL := "https://go.example/x", urlParse := parseA, allowLocalhost := false,
    parseRFC3339 := fun _ => none, parseDateEOD := fun _ => none,
    sanitizeInput := fun x => x, now := 1000, nowPlus5y := 158767000,
    suffixGen := "Zz", suffixCol := "Qq", newSessionID := "sessNew",
    clientIP := "1.2.3.4", userAgent := "agent" }

/-- A fully explicit link record template. -/
def mkRec (id : Nat) (shortURL longURL domain userID : String) : URLData :=
  { id := id, shortURL := shortURL, longURL := longURL, domain := domain, tags := [],
    userID := userID, createdAt := 0, expiresAt := none, clicks := 0, isActive := true,
    lastClicked := none, clickHistory := [] }

/-- Store for the C5 scenario: both the deterministic base code of
`"https://example.com"` (which is `"3gU4BdRtKh"`) and that code with the
suffix `"Zz"` appended are already taken. -/
def exC5Store : Store :=
  { urls := [mkRec 0 "3gU4BdRtKh" "https://old.example/1" "https://go.example/x" "u1",
             mkRec 1 "3gU4BdRtKhZz" "https://old.example/2" "https://go.example/x" "u1"],
    demo := [], nextId := 2 }

/-- Store for the C6 scenario: two active links sharing `long_url` under
different domains (and distinct codes). -/
def exC6Store : Store :=
  { urls := [mkRec 0 "abc123xy" "https://target.example/page" "https://a.example" "u1",
             mkRec 1 "def456zw" "https://target.example/page" "https://b.example" "u1"],
    demo := [], nextId := 2 }

/-- Store for the C6 witness: admitted by every created index. -/
def exC6GoodStore : Store :=
  { urls := [mkRec 0 "abc123xy" "https://target.example/page" "https://a.example" "u1",
             mkRec 1 "def456zw" "https://elsewhere.example/q" "https://b.example" "u1"],
    demo := [], nextId := 2 }

/-- Store for the C2 scenario: the custom code `"mycode12"` is already held
by an active link with a different target. -/
def exC2Store : Store :=
  { urls := [mkRec 0 "mycode12" "https://other.example/ab" "https://go.example/x" "u1"],
    demo := [], nextId := 1 }

/-- The C2 request: a valid target plus the already-taken custom code. -/
def exC2Req : ShortenRequest :=
  { longURL := "https://example.com/a", custom := "mycode12", expires := "", domain := "",
    tags := [] }

/-- The empty store. -/
def emptyStore : Store := { urls := [], demo := [], nextId := 0 }

/-- A demo document for one session. -/
def mkDemo (id : Nat) (code sess : String) : DemoURL :=
  { id := id, shortURL := code, longURL := "https://old.example/1", domain := "",
    createdAt := 0, expiresAt := 5000, sessionID := sess }

/-- Store for the C10 scenario: the session `"sess1"` already owns five
demo links. -/
def exC10Store : Store :=
  { urls := [],
    demo := [mkDemo 0 "d1aaaa" "sess1", mkDemo 1 "d2aaaa" "sess1", mkDemo 2 "d3aaaa" "sess1",
             mkDemo 3 "d4aaaa" "sess1", mkDemo 4 "d5aaaa" "sess1"],
    nextId := 5 }

/-- Store for the C9 scenario: an active, unexpired link whose stored
target no longer passes `validateURL` (it does not even parse). -/
def exC9Store : Store :=
  { urls := [mkRec 0 "evil1234" "notaurl-anymore" "https://go.example/x" "u1"],
    demo := [], nextId := 1 }

/-- Three CSV rows for the batch scenario (the third one invalid). -/
def exRows : List BulkURLRequest :=
  [⟨"https://example.com/a", "", "", [], ""⟩,
   ⟨"https://other.example/ab", "", "", [], ""⟩,
   ⟨"badurl", "", "", [], ""⟩]

/-! ## Supporting lemmas -/

theorem encodeBase58Go_zero (f : Nat) : encodeBase58Go f 0 = [] := by
  cases f <;> simp [encodeBase58Go]

theorem encodeBase58Go_fuel : ∀ (n f₁ f₂ : Nat), n ≤ f₁ → n ≤ f₂ →
    encodeBase58Go f₁ n = encodeBase58Go f₂ n := by
  intro n
  induction n using Nat.strong_induction_on with
  | _ n ih =>
    intro f₁ f₂ h₁ h₂
    cases n with
    | zero => rw [encodeBase58Go_zero, encodeBase58Go_zero]
    | succ m =>
      cases f₁ with
      | zero => omega
      | succ g₁ =>
        cases f₂ with
        | zero => omega
        | succ g₂ =>
          have hdiv : (m + 1) / 58 < m + 1 := Nat.div_lt_self (by omega) (by omega)
          simp only [encodeBase58Go, if_neg (Nat.succ_ne_zero m)]
          rw [ih ((m + 1) / 58) hdiv g₁ g₂ (by omega) (by omega)]

theorem base58Digit_mem : ∀ m < 58, base58Digit m ∈ base58Chars := by decide

theorem mem_base58Chars_unambiguous :
    ∀ c ∈ base58Chars, ¬(c = '0' ∨ c = 'O' ∨ c = 'I' ∨ c = 'l') := by decide

theorem encodeBase58Go_chars (fuel : Nat) :
    ∀ n, ∀ c ∈ encodeBase58Go fuel n, c ∈ base58Chars := by
  induction fuel with
  | zero => intro n c hc; simp [encodeBase58Go] at hc
  | succ f ih =>
    intro n c hc
    simp only [encodeBase58Go] at hc
    split at hc
    · simp at hc
    · rcases List.mem_append.mp hc with h | h
      · exact ih _ c h
      · simp only [List.mem_singleton] at h
        subst h
        exact base58Digit_mem _ (Nat.mod_lt _ (by decide))

theorem encodeBase58_chars (n : Nat) : ∀ c ∈ encodeBase58 n, c ∈ base58Chars := by
  intro c hc
  simp only [encodeBase58] at hc
  split at hc
  · simp only [List.mem_singleton] at hc; subst hc; decide
  · exact encodeBase58Go_chars _ _ c hc

theorem padLoop_chars (fuel : Nat) :
    ∀ code minLength, ∀ c ∈ padLoop fuel code minLength, c = '1' ∨ c ∈ code := by
  induction fuel with
  | zero => intro code m c hc; right; simpa [padLoop] using hc
  | succ f ih =>
    intro code m c hc
    simp only [padLoop] at hc
    split at hc
    · rcases ih _ _ _ hc with h | h
      · exact .inl h
      · rcases List.mem_cons.mp h with h | h
        · exact .inl h
        · exact .inr h
    · exact .inr hc

theorem padLoop_length_ge (fuel : Nat) :
    ∀ (code : List Char) minLength, minLength ≤ fuel + code.length →
      minLength ≤ (padLoop fuel code minLength).length := by
  induction fuel with
  | zero => intro code m h; simpa [padLoop] using h
  | succ f ih =>
    intro code m h
    simp only [padLoop]
    split
    · exact ih _ _ (by simp; omega)
    · omega

theorem pairwiseB_iff (p : α → α → Bool) (l : List α) :
    pairwiseB p l = true ↔ List.Pairwise (fun a b => p a b = true) l := by
  induction l with
  | nil => simp [pairwiseB]
  | cons a l ih => simp [pairwiseB, List.all_eq_true, ih]

/-! ## Claims -/

/-- C4: every base code has between 6 and 10 characters, all drawn from the
58-symbol alphabet, hence never 0, O, I or l: the encoding is left-padded
with the zero symbol '1' to a minimum length of 6 and truncated to 10 if
longer. -/
theorem claim4_code_length_alphabet (u : String) :
    6 ≤ (generateReadableBaseCode u).length ∧ (generateReadableBaseCode u).length ≤ 10 ∧
      ∀ c ∈ generateReadableBaseCode u,
        c ∈ base58Chars ∧ c ≠ '0' ∧ c ≠ 'O' ∧ c ≠ 'I' ∧ c ≠ 'l' := by
  have hpadchars : ∀ c ∈ (if (encodeBase58 (urlHashInt u)).length < 6
      then padBase58 (encodeBase58 (urlHashInt u)) 6
      else encodeBase58 (urlHashInt u)), c ∈ base58Chars := by
    intro c hc
    split at hc
    · rcases padLoop_chars 6 (encodeBase58 (urlHashInt u)) 6 c (by simpa [padBase58] using hc)
        with h | h
      · subst h; decide
      · exact encodeBase58_chars _ _ h
    · exact encodeBase58_chars _ _ hc
  have hpadlen : 6 ≤ (if (encodeBase58 (urlHashInt u)).length < 6
      then padBase58 (encodeBase58 (urlHashInt u)) 6
      else encodeBase58 (urlHashInt u)).length := by
    split
    · have := padLoop_length_ge 6 (encodeBase58 (urlHashInt u)) 6 (by omega)
      simpa [padBase58] using this
    · omega
  simp only [generateReadableBaseCode]
  generalize hg : (if (encodeBase58 (urlHashInt u)).length < 6
      then padBase58 (encodeBase58 (urlHashInt u)) 6
      else encodeBase58 (urlHashInt u)) = padded at hpadchars hpadlen ⊢
  have hchars : ∀ c ∈ (if padded.length > 10 then padded.take 10 else padded),
      c ∈ base58Chars ∧ c ≠ '0' ∧ c ≠ 'O' ∧ c ≠ 'I' ∧ c ≠ 'l' := by
    intro c hc
    have hmem : c ∈ base58Chars := by
      split at hc
      · exact hpadchars _ (List.mem_of_mem_take hc)
      · exact hpadchars _ hc
    have hamb := mem_base58Chars_unambiguous c hmem
    refine ⟨hmem, ?_, ?_, ?_, ?_⟩ <;> intro h <;> exact hamb (by simp [h])
  rcases Nat.lt_or_ge 10 padded.length with hbig | hsmall
  · rw [if_pos hbig] at hchars ⊢
    exact ⟨by rw [List.length_take]; omega, by rw [List.length_take]; omega, hchars⟩
  · rw [if_neg (by omega)] at hchars ⊢
    exact ⟨hpadlen, by omega, hchars⟩

/-- C3: base-code generation is deterministic — it depends only on the byte
sequence of the target URL — and is computed by SHA-256-hashing the URL,
interpreting the first 8 digest bytes as a big-endian unsigned integer,
Base58-encoding it, padding to 6, truncating to 10. -/
theorem claim3_deterministic_generation (u₁ u₂ : String) (h : strBytes u₁ = strBytes u₂) :
    generateReadableBaseCode u₁ = generateReadableBaseCode u₂ ∧
      generateReadableBaseCode u₁ =
        (let code := encodeBase58 (fromBytesBE ((sha256Bytes (strBytes u₁)).take 8))
         let padded := if code.length < 6 then padBase58 code 6 else code
         if padded.length > 10 then padded.take 10 else padded) := by
  constructor
  · simp only [generateReadableBaseCode, urlHashInt, h]
  · rfl

/-- C6 counterexample: a store with two active links that share `long_url`
under different domains satisfies the spec-worded `(targetURL, domain)`
constraint, yet the indexes that `createIndexes` actually creates reject
it — the partial unique index ranges over `long_url` alone. -/
theorem claim6_index_scope_counterexample :
    specPairConstraint exC6Store = true ∧ storeAdmitted exC6Store = false := by
  decide

/-- C6 (amended): the unique index backing deduplication is scoped to
`long_url` alone restricted to active records, so any store the created
indexes admit has pairwise-distinct `long_url` among active links — two
active links with the same targetURL are rejected even under different
domains. -/
theorem claim6_index_scope_amended (s : Store) (h : storeAdmitted s = true) :
    List.Pairwise (fun a b => a.isActive = true → b.isActive = true → a.longURL ≠ b.longURL)
      s.urls := by
  have h2 : indexAdmits ⟨["long_url"], true, true⟩ s = true := by
    simp only [storeAdmitted, List.all_eq_true, urlIndexes] at h
    exact h _ (by simp)
  simp only [indexAdmits, Bool.not_true, Bool.false_or] at h2
  rw [pairwiseB_iff] at h2
  refine h2.imp ?_
  intro a b hab ha hb heq
  simp [coveredBy, fieldVal, ha, hb, heq] at hab

/-- C6 witness. -/
theorem claim6_index_scope_amended_witness :
    storeAdmitted exC6GoodStore = true ∧
      List.Pairwise (fun a b => a.isActive = true → b.isActive = true → a.longURL ≠ b.longURL)
        exC6GoodStore.urls :=
  ⟨by decide, claim6_index_scope_amended exC6GoodStore (by decide)⟩

theorem demoCount_append (s : Store) (d : DemoURL) (nid : Nat) (sid : String) :
    demoCount { s with demo := s.demo ++ [d], nextId := nid } sid =
      demoCount s sid + (if d.sessionID == sid then 1 else 0) := by
  simp only [demoCount, List.filter_append, List.length_append]
  congr 1
  by_cases hd : (d.sessionID == sid) = true
  · simp [List.filter, hd]
  · simp [List.filter, hd]

theorem rapidLinkDemo_limit (env : Env) (cookie : Option String) (body : Option DemoRequest)
    (s : Store) (h : 5 ≤ demoCount s (usedSession env cookie)) :
    rapidLinkDemo env cookie body s = (.limitReached, s) := by
  simp only [rapidLinkDemo]
  rw [if_pos (by simpa using h)]

theorem rapidLinkDemo_count_le (env : Env) (cookie : Option String) (body : Option DemoRequest)
    (s : Store) (sid : String) (h : demoCount s sid ≤ 5) :
    demoCount (rapidLinkDemo env cookie body s).2 sid ≤ 5 := by
  by_cases hlim : 5 ≤ demoCount s (usedSession env cookie)
  · rw [rapidLinkDemo_limit env cookie body s hlim]; exact h
  · simp only [rapidLinkDemo]
    rw [if_neg (by simpa using hlim)]
    cases body with
    | none => exact h
    | some req =>
      dsimp only
      rw [demoCount_append]
      dsimp only
      by_cases hsid : (usedSession env cookie == sid) = true
      · have hEq : usedSession env cookie = sid := eq_of_beq hsid
        rw [if_pos hsid, ← hEq]
        omega
      · rw [if_neg hsid]
        omega

/-- C10: the demo shortener refuses a session that already stored 5 or more
demo URLs (HTTP 403, no insert), and every demo request preserves the
per-session cap of 5. -/
theorem claim10_demo_limit :
    (∀ (env : Env) (cookie : Option String) (body : Option DemoRequest) (s : Store),
        5 ≤ demoCount s (usedSession env cookie) →
          rapidLinkDemo env cookie body s = (.limitReached, s)) ∧
      (∀ (env : Env) (cookie : Option String) (body : Option DemoRequest) (s : Store)
          (sid : String), demoCount s sid ≤ 5 →
          demoCount (rapidLinkDemo env cookie body s).2 sid ≤ 5) :=
  ⟨fun env cookie body s h => rapidLinkDemo_limit env cookie body s h,
   fun env cookie body s sid h => rapidLinkDemo_count_le env cookie body s sid h⟩

/-- C10 witness. -/
theorem claim10_demo_limit_witness :
    rapidLinkDemo envA (some "sess1") (some ⟨"https://example.com/a", ""⟩) exC10Store =
        (.limitReached, exC10Store) ∧
      demoCount (rapidLinkDemo envA (some "sess9") (some ⟨"https://example.com/a", ""⟩)
          exC10Store).2 "sess1" ≤ 5 :=
  ⟨claim10_demo_limit.1 envA (some "sess1") (some ⟨"https://example.com/a", ""⟩) exC10Store
      (by decide),
   claim10_demo_limit.2 envA (some "sess9") (some ⟨"https://example.com/a", ""⟩) exC10Store
      "sess1" (by decide)⟩

set_option maxRecDepth 10000 in
/-- C5 counterexample: with the deterministic code of
`"https://example.com"` and its suffixed variant both taken, the resolver
still returns the suffixed code — which is already present in the store —
so no recheck, bounded loop, or confirmed-absent guarantee exists. -/
theorem claim5_collision_counterexample :
    generateReadableCode envA exC5Store "https://example.com" = "3gU4BdRtKhZz" ∧
      ∃ x ∈ exC5Store.urls,
        x.shortURL = generateReadableCode envA exC5Store "https://example.com" := by
  decide

/-- C5 (amended): when the deterministic candidate is already taken by any
record, `generateReadableCode` appends the one 2-character random suffix it
drew and returns that immediately — a single attempt with no recheck
against the store and no retry loop. -/
theorem claim5_collision_single_attempt (env : Env) (s : Store) (longURL : String) (r : URLData)
    (h : s.urls.find?
        (fun x => x.shortURL == String.mk (generateReadableBaseCode longURL)) = some r) :
    generateReadableCode env s longURL =
      String.mk (generateReadableBaseCode longURL) ++ env.suffixGen := by
  simp only [generateReadableCode]
  rw [h]

set_option maxRecDepth 10000 in
/-- C5 witness. -/
theorem claim5_collision_single_attempt_witness :
    exC5Store.urls.find?
        (fun x => x.shortURL == String.mk (generateReadableBaseCode "https://example.com")) =
      some (mkRec 0 "3gU4BdRtKh" "https://old.example/1" "https://go.example/x" "u1") ∧
    generateReadableCode envA exC5Store "https://example.com" =
      String.mk (generateReadableBaseCode "https://example.com") ++ envA.suffixGen :=
  ⟨by decide,
   claim5_collision_single_attempt envA exC5Store "https://example.com"
     (mkRec 0 "3gU4BdRtKh" "https://old.example/1" "https://go.example/x" "u1") (by decide)⟩

/-- C9 counterexample: a resolvable active link whose stored target fails
validation is blocked, but its click fields do NOT stay unchanged — the
analytics update runs before the re-validation, so the blocked store shows
the click count bumped from 0 to 1. -/
theorem claim9_blocked_counterexample :
    (redirect envA "evil1234" exC9Store).1 = .blocked ∧
      ((redirect envA "evil1234" exC9Store).2.urls.map fun r => r.clicks) = [1] ∧
      (exC9Store.urls.map fun r => r.clicks) = [0] := by
  decide

/-- C9 (amended): a code resolving to an active, non-expired link whose
stored target fails `validateURL` yields the blocked outcome, distinct from
not-found — but the click update (increment, lastClickedAt, append) has
already been applied to the store by then, so the blocked link's click
fields do change. -/
theorem claim9_blocked_amended (env : Env) (code : String) (s : Store) (r : URLData)
    (hgate : redirectGate code = false)
    (hfind : s.urls.find? (primaryMatch env code) = some r)
    (hval : validateURL env r.longURL = false) :
    redirect env code s = (.blocked, recordClick env s r.id) ∧
      RedirectOutcome.blocked ≠ RedirectOutcome.notFound := by
  refine ⟨?_, by simp⟩
  simp only [redirect, hgate, hfind, hval]
  rfl

/-- C9 witness. -/
theorem claim9_blocked_amended_witness :
    redirect envA "evil1234" exC9Store =
        (.blocked, recordClick envA exC9Store
          (mkRec 0 "evil1234" "notaurl-anymore" "https://go.example/x" "u1").id) ∧
      RedirectOutcome.blocked ≠ RedirectOutcome.notFound :=
  claim9_blocked_amended envA "evil1234" exC9Store
    (mkRec 0 "evil1234" "notaurl-anymore" "https://go.example/x" "u1")
    (by decide) (by decide) (by decide)

theorem processSingleURL_fst_longURL (env : Env) (req : BulkURLRequest) (uid : String)
    (s : Store) : (processSingleURL env req uid s).1.longURL = req.longURL := by
  simp only [processSingleURL]
  repeat' split
  all_goals rfl

theorem runSchedule_length (env : Env) (uid : String) (rows : List BulkURLRequest) :
    ∀ (sched : List Nat) (s : Store) (buf : List (Option BulkURLResult)),
      ((runSchedule env uid rows sched s buf).1).length = buf.length := by
  intro sched
  induction sched with
  | nil => intro s buf; rfl
  | cons j rest ih =>
    intro s buf
    simp only [runSchedule]
    cases hrow : rows[j]? with
    | none => exact ih s buf
    | some row => rw [ih]; simp

theorem runSchedule_good (env : Env) (uid : String) (rows : List BulkURLRequest) :
    ∀ (sched : List Nat) (s : Store) (buf : List (Option BulkURLResult)),
      (∀ (i : Nat) (res : BulkURLResult), buf[i]? = some (some res) →
        ∀ (row : BulkURLRequest), rows[i]? = some row → res.longURL = row.longURL) →
      ∀ (i : Nat) (res : BulkURLResult),
        ((runSchedule env uid rows sched s buf).1)[i]? = some (some res) →
        ∀ (row : BulkURLRequest), rows[i]? = some row → res.longURL = row.longURL := by
  intro sched
  induction sched with
  | nil => intro s buf hbuf; exact hbuf
  | cons j rest ih =>
    intro s buf hbuf
    simp only [runSchedule]
    cases hrow : rows[j]? with
    | none => exact ih s buf hbuf
    | some row =>
      apply ih
      intro i res hset row2 hrow2
      by_cases hij : j = i
      · subst hij
        rcases Nat.lt_or_ge j buf.length with hlt | hge
        · rw [List.getElem?_set_eq_of_lt _ hlt] at hset
          have hres : (processSingleURL env row uid s).1 = res := by
            injection hset with h1; injection h1
          rw [hrow] at hrow2
          injection hrow2 with h2
          subst h2
          rw [← hres]
          exact processSingleURL_fst_longURL env row uid s
        · rw [List.set_eq_of_length_le hge] at hset
          exact hbuf _ _ hset _ hrow2
      · rw [List.getElem?_set_ne hij] at hset
        exact hbuf _ _ hset _ hrow2

theorem runSchedule_some_stable (env : Env) (uid : String) (rows : List BulkURLRequest) :
    ∀ (sched : List Nat) (s : Store) (buf : List (Option BulkURLResult)) (i : Nat),
      (∃ r, buf[i]? = some (some r)) →
      ∃ r, ((runSchedule env uid rows sched s buf).1)[i]? = some (some r) := by
  intro sched
  induction sched with
  | nil => intro s buf i h; exact h
  | cons j rest ih =>
    intro s buf i h
    simp only [runSchedule]
    cases hrow : rows[j]? with
    | none => exact ih s buf i h
    | some row =>
      apply ih
      by_cases hij : j = i
      · subst hij
        obtain ⟨r, hr⟩ := h
        have hlt : j < buf.length := by
          by_contra hge
          rw [List.getElem?_eq_none (by omega)] at hr
          cases hr
        exact ⟨_, List.getElem?_set_eq_of_lt _ hlt⟩
      · rw [List.getElem?_set_ne hij]
        exact h

theorem runSchedule_covers (env : Env) (uid : String) (rows : List BulkURLRequest) :
    ∀ (sched : List Nat) (s : Store) (buf : List (Option BulkURLResult)) (i : Nat),
      i ∈ sched → i < rows.length → i < buf.length →
      ∃ r, ((runSchedule env uid rows sched s buf).1)[i]? = some (some r) := by
  intro sched
  induction sched with
  | nil => intro s buf i h; cases h
  | cons j rest ih =>
    intro s buf i hmem hrows hbuf
    simp only [runSchedule]
    cases hrow : rows[j]? with
    | none =>
      rcases List.mem_cons.mp hmem with he | hm
      · subst he
        rw [List.getElem?_eq_getElem hrows] at hrow
        cases hrow
      · exact ih s buf i hm hrows hbuf
    | some row =>
      rcases List.mem_cons.mp hmem with he | hm
      · subst he
        exact runSchedule_some_stable env uid rows rest _ _ i
          ⟨_, List.getElem?_set_eq_of_lt _ hbuf⟩
      · exact ih _ _ i hm hrows (by simpa using hbuf)

/-- C7: for a schedule that processes each row index exactly once (any
permutation of the index range, as the worker pool produces), the results
buffer has exactly one entry per row and entry i echoes row i's longURL —
each worker writes only to its own index. -/
theorem claim7_batch_order (env : Env) (uid : String) (rows : List BulkURLRequest)
    (schedule : List Nat) (s : Store)
    (hperm : List.Perm schedule (List.range rows.length)) :
    ((processBatch env uid rows schedule s).1).length = rows.length ∧
    ∀ i, ∀ _ : i < rows.length,
      ∃ res, ((processBatch env uid rows schedule s).1)[i]? = some (some res) ∧
        res.longURL = rows[i].longURL := by
  constructor
  · simp only [processBatch]
    rw [runSchedule_length]
    simp
  · intro i hi
    have hmem : i ∈ schedule := hperm.mem_iff.mpr (List.mem_range.mpr hi)
    obtain ⟨r, hr⟩ := runSchedule_covers env uid rows schedule s
      (List.replicate rows.length none) i hmem hi (by simpa using hi)
    refine ⟨r, hr, ?_⟩
    refine runSchedule_good env uid rows schedule s (List.replicate rows.length none)
      ?_ i r hr rows[i] (List.getElem?_eq_getElem hi)
    intro k res hk row hrowk
    rcases Nat.lt_or_ge k rows.length with hlt | hge
    · rw [List.getElem?_replicate, if_pos hlt] at hk
      cases hk
    · rw [List.getElem?_eq_none (by simpa using hge)] at hk
      cases hk

/-- C7 witness. -/
theorem claim7_batch_order_witness :
    ((processBatch envA "u7" exRows [2, 0, 1] emptyStore).1).length = exRows.length ∧
    ∃ res, ((processBatch envA "u7" exRows [2, 0, 1] emptyStore).1)[1]? = some (some res) ∧
      res.longURL = exRows[1].longURL :=
  ⟨(claim7_batch_order envA "u7" exRows [2, 0, 1] emptyStore (by decide)).1,
   (claim7_batch_order envA "u7" exRows [2, 0, 1] emptyStore (by decide)).2 1 (by decide)⟩

theorem clickInv_append (s : Store) (u : URLData) (nid : Nat) (h : ClickInv s)
    (hu : u.clicks = u.clickHistory.length) :
    ClickInv { s with urls := s.urls ++ [u], nextId := nid } := by
  intro r hr
  rcases List.mem_append.mp hr with h1 | h1
  · exact h r h1
  · rw [List.mem_singleton.mp h1]
    exact hu

theorem shortenInsertPhase_clickInv (env : Env) (req : ShortenRequest) (uid : String)
    (s : Store) (code : String) (h : ClickInv s) :
    ClickInv (shortenInsertPhase env req uid s code).store := by
  simp only [shortenInsertPhase]
  split
  · exact h
  · split
    · exact clickInv_append s _ _ h rfl
    · exact clickInv_append s _ _ h rfl

theorem shorten_clickInv (env : Env) (req : ShortenRequest) (uid : String) (s : Store)
    (h : ClickInv s) : ClickInv (shorten env req uid s).store := by
  simp only [shorten]
  split
  · exact h
  · split
    · exact h
    · split
      · exact h
      · split
        · exact h
        · exact shortenInsertPhase_clickInv env req uid s _ h

theorem processSingleURL_clickInv (env : Env) (req : BulkURLRequest) (uid : String)
    (s : Store) (h : ClickInv s) : ClickInv (processSingleURL env req uid s).2 := by
  simp only [processSingleURL]
  split
  · exact h
  · split
    · exact h
    · split
      · exact h
      · split
        · exact h
        · exact clickInv_append s _ _ h rfl

theorem recordClick_clickInv (env : Env) (s : Store) (rid : Nat) (h : ClickInv s) :
    ClickInv (recordClick env s rid) := by
  intro r hr
  obtain ⟨u, hu, rfl⟩ := List.mem_map.mp hr
  by_cases hid : (u.id == rid) = true
  · rw [if_pos hid]
    simp [h u hu]
  · rw [if_neg hid]
    exact h u hu

theorem redirect_clickInv (env : Env) (code : String) (s : Store) (h : ClickInv s) :
    ClickInv (redirect env code s).2 := by
  simp only [redirect]
  split
  · exact h
  · split
    · split
      · exact recordClick_clickInv env s _ h
      · exact recordClick_clickInv env s _ h
    · split
      · split
        · exact h
        · exact h
      · exact h

theorem rapidLinkDemo_clickInv (env : Env) (cookie : Option String)
    (body : Option DemoRequest) (s : Store) (h : ClickInv s) :
    ClickInv (rapidLinkDemo env cookie body s).2 := by
  simp only [rapidLinkDemo]
  split
  · exact h
  · split
    · exact h
    · exact h

theorem cleanupExpiredURLs_clickInv (env : Env) (s : Store) (h : ClickInv s) :
    ClickInv (cleanupExpiredURLs env s) := by
  intro r hr
  obtain ⟨u, hu, rfl⟩ := List.mem_map.mp hr
  split
  · exact h u hu
  · exact h u hu

theorem applyOp_clickInv (s : Store) (op : Op) (h : ClickInv s) : ClickInv (applyOp s op) := by
  cases op with
  | opShorten env req uid => exact shorten_clickInv env req uid s h
  | opBulkRow env req uid => exact processSingleURL_clickInv env req uid s h
  | opRedirect env c => exact redirect_clickInv env c s h
  | opDemo env ck b => exact rapidLinkDemo_clickInv env ck b s h
  | opCleanup env => exact cleanupExpiredURLs_clickInv env s h

theorem foldl_clickInv (ops : List Op) : ∀ s, ClickInv s → ClickInv (ops.foldl applyOp s) := by
  induction ops with
  | nil => intro s h; exact h
  | cons op rest ih => intro s h; exact ih _ (applyOp_clickInv s op h)

/-- C8: every store operation preserves clickCount = length(clickEvents)
(creation starts at 0 with empty history), hence every operation history
does; and the redirect hit applies one atomic compound update — increment
by exactly 1, set lastClickedAt, append exactly one event — to exactly the
matched document, in one store transition. -/
theorem claim8_click_invariant :
    (∀ (s : Store) (op : Op), ClickInv s → ClickInv (applyOp s op)) ∧
    (∀ (ops : List Op) (s : Store), ClickInv s → ClickInv (ops.foldl applyOp s)) ∧
    (∀ (env : Env) (code : String) (s : Store) (r : URLData),
      redirectGate code = false →
      s.urls.find? (primaryMatch env code) = some r →
      (redirect env code s).2.urls = s.urls.map fun u =>
        if u.id == r.id then
          { u with clicks := u.clicks + 1, lastClicked := some env.now,
                   clickHistory := u.clickHistory ++ [⟨env.now, env.clientIP, env.userAgent⟩] }
        else u) := by
  refine ⟨fun s op h => applyOp_clickInv s op h, fun ops s h => foldl_clickInv ops s h, ?_⟩
  intro env code s r hgate hfind
  simp only [redirect, hgate, hfind, Bool.false_eq_true, if_false]
  split <;> rfl

/-- C8 witness. -/
theorem claim8_click_invariant_witness :
    ClickInv (applyOp exC9Store (.opCleanup envA)) ∧
    ClickInv ([Op.opRedirect envA "evil1234"].foldl applyOp exC9Store) ∧
    (redirect envA "evil1234" exC9Store).2.urls = exC9Store.urls.map fun u =>
      if u.id == (mkRec 0 "evil1234" "notaurl-anymore" "https://go.example/x" "u1").id then
        { u with clicks := u.clicks + 1, lastClicked := some envA.now,
                 clickHistory := u.clickHistory ++ [⟨envA.now, envA.clientIP, envA.userAgent⟩] }
      else u :=
  ⟨claim8_click_invariant.1 exC9Store (.opCleanup envA)
     (by show ∀ r ∈ exC9Store.urls, r.clicks = r.clickHistory.length; decide),
   claim8_click_invariant.2.1 [Op.opRedirect envA "evil1234"] exC9Store
     (by show ∀ r ∈ exC9Store.urls, r.clicks = r.clickHistory.length; decide),
   claim8_click_invariant.2.2 envA "evil1234" exC9Store
     (mkRec 0 "evil1234" "notaurl-anymore" "https://go.example/x" "u1")
     (by decide) (by decide)⟩

theorem shorten_returns_existing (env : Env) (req : ShortenRequest) (uid : String) (s : Store)
    (ex : URLData)
    (hv : validateURL env req.longURL = true)
    (hd : (effDomain env req != "" && !validateURL env (effDomain env req)) = false)
    (hc : (req.custom != "" && !validateCustomURL req.custom) = false)
    (hfind : s.urls.find? (dedupMatch req.longURL (effDomain env req) uid) = some ex) :
    shorten env req uid s = ⟨200, some ex, s⟩ := by
  simp only [shorten, hv, hd, hc, hfind]
  simp

theorem effDomain_congr (env₁ env₂ : Env) (req : ShortenRequest)
    (h : env₂.baseURL = env₁.baseURL) : effDomain env₂ req = effDomain env₁ req := by
  simp only [effDomain, h]

theorem find?_append_of_none {α} (p : α → Bool) (l₁ l₂ : List α) (h : l₁.find? p = none) :
    (l₁ ++ l₂).find? p = l₂.find? p := by
  induction l₁ with
  | nil => simp
  | cons a l ih =>
    cases hpa : p a with
    | true => rw [List.find?_cons_of_pos _ hpa] at h; cases h
    | false =>
      rw [List.find?_cons_of_neg _ (by simp [hpa])] at h
      rw [List.cons_append, List.find?_cons_of_neg _ (by simp [hpa])]
      exact ih h

theorem shortenInsertPhase_creates (env : Env) (req : ShortenRequest) (uid : String) (s : Store)
    (code : String) (hexp : req.expires = "") :
    ∃ rec, shortenInsertPhase env req uid s code =
        ⟨201, some rec, { s with urls := s.urls ++ [rec], nextId := s.nextId + 1 }⟩ ∧
      rec.longURL = req.longURL ∧ rec.domain = effDomain env req ∧ rec.userID = uid ∧
      rec.isActive = true := by
  simp only [shortenInsertPhase, hexp]
  simp
  cases hcol : s.urls.find? (fun r => r.shortURL == code) with
  | none => exact ⟨_, rfl, rfl, rfl, rfl, rfl⟩
  | some r2 => exact ⟨_, rfl, rfl, rfl, rfl, rfl⟩

theorem shorten_dedup_miss (env : Env) (req : ShortenRequest) (uid : String) (s : Store)
    (hv : validateURL env req.longURL = true)
    (hd : (effDomain env req != "" && !validateURL env (effDomain env req)) = false)
    (hc : (req.custom != "" && !validateCustomURL req.custom) = false)
    (hdedup : s.urls.find? (dedupMatch req.longURL (effDomain env req) uid) = none) :
    shorten env req uid s = shortenInsertPhase env req uid s (shortenCode env req s) := by
  simp only [shorten, hv, hd, hc, hdedup]
  simp

/-- C1: with a matching active link present, `shorten` answers 200 with the
existing record and inserts nothing; and two identical valid create
requests, the first finding no active match, yield 201 then 200 with the
same record and the same code. -/
theorem claim1_create_idempotent :
    (∀ (env : Env) (req : ShortenRequest) (uid : String) (s : Store) (ex : URLData),
      validateURL env req.longURL = true →
      (effDomain env req != "" && !validateURL env (effDomain env req)) = false →
      (req.custom != "" && !validateCustomURL req.custom) = false →
      s.urls.find? (dedupMatch req.longURL (effDomain env req) uid) = some ex →
      shorten env req uid s = ⟨200, some ex, s⟩) ∧
    (∀ (env₁ env₂ : Env) (req : ShortenRequest) (uid : String) (s : Store),
      validateURL env₁ req.longURL = true →
      (effDomain env₁ req != "" && !validateURL env₁ (effDomain env₁ req)) = false →
      validateURL env₂ req.longURL = true →
      (effDomain env₂ req != "" && !validateURL env₂ (effDomain env₂ req)) = false →
      (req.custom != "" && !validateCustomURL req.custom) = false →
      env₂.baseURL = env₁.baseURL →
      s.urls.find? (dedupMatch req.longURL (effDomain env₁ req) uid) = none →
      req.expires = "" →
      ∃ rec, (shorten env₁ req uid s).status = 201 ∧
        (shorten env₁ req uid s).body = some rec ∧
        shorten env₂ req uid (shorten env₁ req uid s).store =
          ⟨200, some rec, (shorten env₁ req uid s).store⟩) := by
  constructor
  · exact fun env req uid s ex hv hd hc hfind =>
      shorten_returns_existing env req uid s ex hv hd hc hfind
  · intro env₁ env₂ req uid s hv1 hd1 hv2 hd2 hc hbase hdedup hexp
    have h1 := shorten_dedup_miss env₁ req uid s hv1 hd1 hc hdedup
    obtain ⟨rec, hph, hlong, hdom, huser, hact⟩ :=
      shortenInsertPhase_creates env₁ req uid s (shortenCode env₁ req s) hexp
    refine ⟨rec, by rw [h1, hph], by rw [h1, hph], ?_⟩
    rw [h1, hph]
    apply shorten_returns_existing env₂ req uid _ rec hv2 hd2 hc
    rw [effDomain_congr env₁ env₂ req hbase]
    show (s.urls ++ [rec]).find? _ = some rec
    rw [find?_append_of_none _ _ _ hdedup]
    simp [List.find?, dedupMatch, hlong, hdom, huser, hact]

/-- C1 witness. -/
theorem claim1_create_idempotent_witness :
    shorten envA
        ⟨"https://example.com/a", "wit-code1", "", "", []⟩ "u3"
        (shorten envA ⟨"https://example.com/a", "wit-code1", "", "", []⟩ "u3" emptyStore).store =
      ⟨200,
        (shorten envA ⟨"https://example.com/a", "wit-code1", "", "", []⟩ "u3" emptyStore).body,
        (shorten envA ⟨"https://example.com/a", "wit-code1", "", "", []⟩ "u3" emptyStore).store⟩ := by
  obtain ⟨rec, hst, hbody, hsecond⟩ :=
    claim1_create_idempotent.2 envA envA ⟨"https://example.com/a", "wit-code1", "", "", []⟩ "u3"
      emptyStore (by decide) (by decide) (by decide) (by decide) (by decide) rfl
      (by decide) rfl
  rw [hsecond, hbody]

/-- C2 counterexample: with the custom code `"mycode12"` already active
under a different target, `shorten` does not report 409: it creates a new
link (201) — silently suffixing the custom code — and persists it. -/
theorem claim2_custom_conflict_counterexample :
    (shorten envA exC2Req "u2" exC2Store).status = 201 ∧
      (shorten envA exC2Req "u2" exC2Store).store.urls.length = 2 ∧
      (shorten envA exC2Req "u2" exC2Store).status ≠ 409 := by
  decide

/-- C2 (amended): in the single-create handler a custom code already
present in the store (active or not, any target) is silently disambiguated
— a 2-character random suffix is appended and the suffixed link inserted
with 201; only the bulk path rejects a custom alias held by an active
record (any target) with an already-exists error, persisting nothing for
that row, and otherwise uses the alias verbatim. -/
theorem claim2_custom_conflict_amended :
    (∀ (env : Env) (req : ShortenRequest) (uid : String) (s : Store) (r : URLData),
      validateURL env req.longURL = true →
      (effDomain env req != "" && !validateURL env (effDomain env req)) = false →
      (req.custom != "" && !validateCustomURL req.custom) = false →
      (req.custom == "") = false →
      s.urls.find? (dedupMatch req.longURL (effDomain env req) uid) = none →
      req.expires = "" →
      s.urls.find? (fun x => x.shortURL == req.custom) = some r →
      ∃ rec, shorten env req uid s =
          ⟨201, some rec, { s with urls := s.urls ++ [rec], nextId := s.nextId + 1 }⟩ ∧
        rec.shortURL = req.custom ++ env.suffixCol) ∧
    (∀ (env : Env) (s : Store) (longURL al : String) (r : URLData),
      (al != "") = true → validateCustomURL al = true →
      s.urls.find? (fun x => x.shortURL == al && x.isActive) = some r →
      generateShortCodeForBulk env s longURL al =
        .error ("custom alias " ++ al ++ " already exists")) ∧
    (∀ (env : Env) (s : Store) (longURL al : String),
      (al != "") = true → validateCustomURL al = true →
      s.urls.find? (fun x => x.shortURL == al && x.isActive) = none →
      generateShortCodeForBulk env s longURL al = .ok al) ∧
    (∀ (env : Env) (req : BulkURLRequest) (uid : String) (s : Store) (r : URLData),
      validateURL env req.longURL = true →
      (req.customAlias != "") = true → validateCustomURL req.customAlias = true →
      s.urls.find? (dedupMatch req.longURL (bulkDomain env req) uid) = none →
      s.urls.find? (fun x => x.shortURL == req.customAlias && x.isActive) = some r →
      (processSingleURL env req uid s).2 = s ∧
        (processSingleURL env req uid s).1.success = false) := by
  refine ⟨?_, ?_, ?_, ?_⟩
  · intro env req uid s r hv hd hc hne hdedup hexp hcol
    refine ⟨{ id := s.nextId, shortURL := req.custom ++ env.suffixCol, longURL := req.longURL,
              domain := effDomain env req, tags := req.tags, userID := uid,
              createdAt := env.now, expiresAt := some env.nowPlus5y, clicks := 0,
              isActive := true, lastClicked := none, clickHistory := [] }, ?_, rfl⟩
    have hcode : shortenCode env req s = req.custom := by simp [shortenCode, hne]
    simp only [shorten, hv, hd, hc, hdedup]
    simp
    rw [hcode]
    simp only [shortenInsertPhase, hexp]
    simp
    rw [hcol]
  · intro env s longURL al r hne hv hcol
    simp only [generateShortCodeForBulk, hne, hv, hcol]
    simp
  · intro env s longURL al hne hv hcol
    simp only [generateShortCodeForBulk, hne, hv, hcol]
    simp
  · intro env req uid s r hv hne hvc hdedup hcol
    have hgen : generateShortCodeForBulk env s req.longURL req.customAlias =
        .error ("custom alias " ++ req.customAlias ++ " already exists") := by
      simp only [generateShortCodeForBulk, hne, hvc, hcol]
      simp
    constructor
    · simp only [processSingleURL, hv, hdedup, hgen]
      simp
    · simp only [processSingleURL, hv, hdedup, hgen]
      simp

/-- C2 witness. -/
theorem claim2_custom_conflict_amended_witness :
    (∃ rec, shorten envA exC2Req "u2" exC2Store =
        ⟨201, some rec,
          { exC2Store with urls := exC2Store.urls ++ [rec],
                           nextId := exC2Store.nextId + 1 }⟩ ∧
      rec.shortURL = exC2Req.custom ++ envA.suffixCol) ∧
    generateShortCodeForBulk envA exC2Store "https://example.com/a" "mycode12" =
        .error ("custom alias " ++ "mycode12" ++ " already exists") ∧
    generateShortCodeForBulk envA exC2Store "https://example.com/a" "freecode1" =
        .ok "freecode1" ∧
    (processSingleURL envA ⟨"https://example.com/a", "", "mycode12", [], ""⟩ "u2"
        exC2Store).2 = exC2Store ∧
    (processSingleURL envA ⟨"https://example.com/a", "", "mycode12", [], ""⟩ "u2"
        exC2Store).1.success = false :=
  ⟨claim2_custom_conflict_amended.1 envA exC2Req "u2" exC2Store
      (mkRec 0 "mycode12" "https://other.example/ab" "https://go.example/x" "u1")
      (by decide) (by decide) (by decide) (by decide) (by decide) (by decide) (by decide),
   claim2_custom_conflict_amended.2.1 envA exC2Store "https://example.com/a" "mycode12"
      (mkRec 0 "mycode12" "https://other.example/ab" "https://go.example/x" "u1")
      (by decide) (by decide) (by decide),
   claim2_custom_conflict_amended.2.2.1 envA exC2Store "https://example.com/a" "freecode1"
      (by decide) (by decide) (by decide),
   (claim2_custom_conflict_amended.2.2.2 envA ⟨"https://example.com/a", "", "mycode12", [], ""⟩
      "u2" exC2Store
      (mkRec 0 "mycode12" "https://other.example/ab" "https://go.example/x" "u1")
      (by decide) (by decide) (by decide) (by decide) (by decide)).1,
   (claim2_custom_conflict_amended.2.2.2 envA ⟨"https://example.com/a", "", "mycode12", [], ""⟩
      "u2" exC2Store
      (mkRec 0 "mycode12" "https://other.example/ab" "https://go.example/x" "u1")
      (by decide) (by decide) (by decide) (by decide) (by decide)).2⟩

/-- C3 witness. -/
theorem claim3_deterministic_generation_witness :
    generateReadableBaseCode "https://example.com" =
        generateReadableBaseCode "https://example.com" ∧
      generateReadableBaseCode "https://example.com" =
        (let code := encodeBase58
          (fromBytesBE ((sha256Bytes (strBytes "https://example.com")).take 8))
         let padded := if code.length < 6 then padBase58 code 6 else code
         if padded.length > 10 then padded.take 10 else padded) :=
  claim3_deterministic_generation "https://example.com" "https://example.com" rfl

end RapidLink
